import Mathlib

/-!
Shallow embedding of the fuel supply-chain optimizer
(`src/models.py`, `src/optimizer.py`, `src/main.py`, `src/api_client.py`).

Python floats are modelled as rationals (`ℚ`), days as integers (`ℤ`),
dicts as association lists in insertion order.  Fallible dictionary
indexing (`KeyError`) and division by zero (`ZeroDivisionError`) are
modelled with `Except Err`; the `try/except` in `Optimizer.optimize`
becomes a `match` on those results.
-/

deriving instance DecidableEq for Except

namespace Fuel

/-- `models.Node` (`src/models.py`). -/
structure Node where
  id : String
  type : String
  capacity : ℚ
  daily_output : ℚ
  daily_input : ℚ
  stock : ℚ
deriving DecidableEq, Repr

/-- `models.Connection` (`src/models.py`). -/
structure Connection where
  id : String
  source : String
  destination : String
  distance : ℚ
  lead_time_days : ℤ
  connection_type : String
  max_capacity : ℚ
  cost_per_unit : ℚ
  co2_per_unit : ℚ
deriving DecidableEq, Repr

/-- `models.Demand` (`src/models.py`).  `remaining_amount` is carried
explicitly (in the source it defaults to `quantity`). -/
structure Demand where
  id : String
  customer_id : String
  quantity : ℚ
  post_day : ℤ
  start_delivery_day : ℤ
  end_delivery_day : ℤ
  remaining_amount : ℚ
deriving DecidableEq, Repr

/-- The movement dicts built by the optimizer
(`optimizer.py`, e.g. lines 173-180). -/
structure Movement where
  connectionId : String
  amount : ℚ
  fromNode : String
  toNode : String
  postedDay : ℤ
  leadTime : ℤ
deriving DecidableEq, Repr

/-- A route record as built by `_find_refinery_routes` / `_find_tank_routes`
(`optimizer.py` lines 48-82). -/
structure Route where
  conn_id : String
  dest_id : String
  lead_time : ℤ
  max_capacity : ℚ
deriving DecidableEq, Repr

/-- A route record as built by `_find_customer_routes`
(`optimizer.py` lines 84-100). -/
structure CRoute where
  conn_id : String
  source_id : String
  lead_time : ℤ
  max_capacity : ℚ
deriving DecidableEq, Repr

/-- Python runtime errors that the optimizer code can raise and that
`optimize`'s `except Exception` catches. -/
inductive Err where
  | keyError (key : String)
  | zeroDiv
deriving DecidableEq, Repr

/-- `self.nodes`: a dict `id -> Node` in insertion order. -/
abbrev NodeMap := List (String × Node)

/-- `self.connections`: a dict `id -> Connection` in insertion order. -/
abbrev ConnMap := List (String × Connection)

/-- `self.projected_stocks`: nested dict `arrival_day -> dest_id -> amount`,
flattened to one association list keyed by `(arrival_day, dest_id)`. -/
abbrev ProjStocks := List ((ℤ × String) × ℚ)

/-- Dict lookup `self.nodes[k]` / `k in self.nodes`. -/
def lookupNode (ns : NodeMap) (k : String) : Option Node :=
  List.lookup k ns

/-- Amount already projected to arrive at `(day, dest)`; `0` when the key is
absent (the source only subtracts the value when the key is present, which
is the same thing). -/
def projGet (p : ProjStocks) (k : ℤ × String) : ℚ :=
  (List.lookup k p).getD 0

/-- `self.projected_stocks[day][dest] += amount`, inserting `0` first when
absent (`optimizer.py` lines 184-190). -/
def projAdd (p : ProjStocks) (k : ℤ × String) (a : ℚ) : ProjStocks :=
  if (List.lookup k p).isSome then
    p.map (fun q => if q.1 = k then (q.1, q.2 + a) else q)
  else
    p ++ [(k, a)]

/-- Stable insertion of a refinery route by ascending lead time. -/
def insertRoute (r : Route) : List Route → List Route
  | [] => [r]
  | s :: ss => if r.lead_time ≤ s.lead_time then r :: s :: ss else s :: insertRoute r ss

/-- `sorted(routes, key=lambda x: x["lead_time"])` — Python's stable sort. -/
def sortRoutes : List Route → List Route
  | [] => []
  | r :: rs => insertRoute r (sortRoutes rs)

/-- Stable insertion of a customer route by ascending lead time. -/
def insertCRoute (r : CRoute) : List CRoute → List CRoute
  | [] => [r]
  | s :: ss => if r.lead_time ≤ s.lead_time then r :: s :: ss else s :: insertCRoute r ss

/-- `sorted(routes, key=lambda x: x["lead_time"])` for customer routes. -/
def sortCRoutes : List CRoute → List CRoute
  | [] => []
  | r :: rs => insertCRoute r (sortCRoutes rs)

/-- Outgoing routes of `nid` (`optimizer.py` lines 54-63). -/
def routesFrom (conns : ConnMap) (nid : String) : List Route :=
  (conns.filter (fun p => p.2.source == nid)).map
    (fun p => ⟨p.1, p.2.destination, p.2.lead_time_days, p.2.max_capacity⟩)

/-- `_find_refinery_routes` (`optimizer.py` lines 48-64). -/
def refineryRoutes (nodes : NodeMap) (conns : ConnMap) : List (String × List Route) :=
  (nodes.filter (fun p => p.2.type == "refinery")).map
    (fun p => (p.1, routesFrom conns p.1))

/-- `_find_customer_routes` (`optimizer.py` lines 84-100). -/
def customerRoutes (nodes : NodeMap) (conns : ConnMap) : List (String × List CRoute) :=
  (nodes.filter (fun p => p.2.type == "customer")).map
    (fun p => (p.1, (conns.filter (fun q => q.2.destination == p.1)).map
      (fun q => ⟨q.1, q.2.source, q.2.lead_time_days, q.2.max_capacity⟩)))

/-- `self.is_endgame = (total_days - current_day) <= 5`
(`optimizer.py` line 25). -/
def isEndgame (total cur : ℤ) : Bool :=
  total - cur ≤ 5

/-- The four phase-dependent objective weights (`optimizer.py` lines 34-43). -/
structure Weights where
  cost : ℚ
  co2 : ℚ
  demand : ℚ
  overflow : ℚ
deriving DecidableEq, Repr

/-- Weight configuration from `Optimizer.__init__` (`optimizer.py` lines 34-43). -/
def mkWeights (endgame : Bool) : Weights :=
  if endgame then ⟨1/10, 1/10, 10, 50⟩ else ⟨1, 1/2, 2, 5⟩

/-- `self.planning_horizon = min(planning_horizon, total_days - current_day + 1)`
(`optimizer.py` line 22). -/
def planningHorizon (ph total cur : ℤ) : ℤ :=
  min ph (total - cur + 1)

/-- Inner route loop of `_handle_critical_refineries`
(`optimizer.py` lines 144-195): walk the lead-time-sorted routes, shipping
`min(remaining, link capacity, destination space, daily output)` on each,
recording the scheduled arrival in the projected-stocks map. -/
def drainCritical (nodesAll : NodeMap) (cur : ℤ) (node : Node) (nid : String) :
    List Route → ℚ → ProjStocks → Except Err (ProjStocks × List Movement)
  | [], _, proj => .ok (proj, [])
  | r :: rs, remaining, proj =>
    if remaining ≤ 0 then .ok (proj, [])
    else
      match lookupNode nodesAll r.dest_id with
      | none => .error (.keyError r.dest_id)
      | some dest =>
        let available :=
          if dest.type == "tank" then
            dest.capacity - dest.stock - projGet proj (cur + r.lead_time, r.dest_id)
          else
            dest.daily_input
        let amount := min (min remaining r.max_capacity) (min available node.daily_output)
        if 0 < amount then
          let m : Movement := ⟨r.conn_id, amount, nid, r.dest_id, cur, r.lead_time⟩
          match drainCritical nodesAll cur node nid rs (remaining - amount)
              (projAdd proj (cur + r.lead_time, r.dest_id) amount) with
          | .error e => .error e
          | .ok (proj', ms) => .ok (proj', m :: ms)
        else
          drainCritical nodesAll cur node nid rs remaining proj

/-- `_handle_critical_refineries` (`optimizer.py` lines 120-197), iterating
the node dict; a refinery with zero capacity raises `ZeroDivisionError` in
the `stock / capacity` percentage computation. -/
def handleCriticalRefineries (nodesAll : NodeMap) (conns : ConnMap) (cur : ℤ) :
    List (String × Node) → ProjStocks → Except Err (ProjStocks × List Movement)
  | [], proj => .ok (proj, [])
  | (nid, node) :: rest, proj =>
    if node.type == "refinery" then
      if node.capacity = 0 then .error .zeroDiv
      else
        let usedPercent := node.stock / node.capacity * 100
        let projectedStock := node.stock + node.daily_output
        if 70 < usedPercent ∨ node.capacity * (9/10) < projectedStock then
          let routes := sortRoutes (((refineryRoutes nodesAll conns).lookup nid).getD [])
          match drainCritical nodesAll cur node nid routes node.stock proj with
          | .error e => .error e
          | .ok (proj', ms) =>
            match handleCriticalRefineries nodesAll conns cur rest proj' with
            | .error e => .error e
            | .ok (proj'', ms') => .ok (proj'', ms ++ ms')
        else
          handleCriticalRefineries nodesAll conns cur rest proj
    else
      handleCriticalRefineries nodesAll conns cur rest proj

/-- Mutation `self.nodes[nid].stock = s` through the shared node dict. -/
def setStock (ns : NodeMap) (nid : String) (s : ℚ) : NodeMap :=
  ns.map (fun p => if p.1 = nid then (p.1, { p.2 with stock := s }) else p)

/-- Inner route loop of `_optimize_endgame`'s first pass
(`optimizer.py` lines 238-271): drain a refinery along its sorted routes,
skipping routes that would arrive after the run's last day. -/
def drainEndgameRoutes (nodesAll : NodeMap) (cur total : ℤ) (node : Node) (nid : String) :
    List Route → ℚ → Except Err (List Movement)
  | [], _ => .ok []
  | r :: rs, remaining =>
    if remaining ≤ 0 then .ok []
    else if total < cur + r.lead_time then
      drainEndgameRoutes nodesAll cur total node nid rs remaining
    else
      match lookupNode nodesAll r.dest_id with
      | none => .error (.keyError r.dest_id)
      | some dest =>
        let available :=
          if dest.type == "tank" then dest.capacity - dest.stock else dest.daily_input
        let amount := min (min remaining r.max_capacity) (min available node.daily_output)
        if 0 < amount then
          match drainEndgameRoutes nodesAll cur total node nid rs (remaining - amount) with
          | .error e => .error e
          | .ok ms =>
            .ok ((⟨r.conn_id, amount, nid, r.dest_id, cur, r.lead_time⟩ : Movement) :: ms)
        else
          drainEndgameRoutes nodesAll cur total node nid rs remaining

/-- First pass of `_optimize_endgame` (`optimizer.py` lines 229-271):
clear every refinery with positive stock. -/
def drainAllRefineries (nodesAll : NodeMap) (conns : ConnMap) (cur total : ℤ) :
    List (String × Node) → Except Err (List Movement)
  | [] => .ok []
  | (nid, node) :: rest =>
    if node.type == "refinery" ∧ 0 < node.stock then
      let routes := sortRoutes (((refineryRoutes nodesAll conns).lookup nid).getD [])
      match drainEndgameRoutes nodesAll cur total node nid routes node.stock with
      | .error e => .error e
      | .ok ms =>
        match drainAllRefineries nodesAll conns cur total rest with
        | .error e => .error e
        | .ok ms' => .ok (ms ++ ms')
    else
      drainAllRefineries nodesAll conns cur total rest

/-- Inner route loop of `_optimize_endgame`'s second pass
(`optimizer.py` lines 289-317): fill one demand from the sorted routes,
deducting each shipped amount directly from the source node's stock.
(The source's `daily_output if refinery else daily_output` is
`daily_output` in both branches.) -/
def fulfillRoutes (cur : ℤ) (custId : String) :
    List CRoute → ℚ → NodeMap → NodeMap × Except Err (List Movement)
  | [], _, ns => (ns, .ok [])
  | r :: rs, remaining, ns =>
    if remaining ≤ 0 then (ns, .ok [])
    else
      match lookupNode ns r.source_id with
      | none => (ns, .error (.keyError r.source_id))
      | some src =>
        if src.stock ≤ 0 then fulfillRoutes cur custId rs remaining ns
        else
          let amount := min (min remaining r.max_capacity) (min src.stock src.daily_output)
          if 0 < amount then
            match fulfillRoutes cur custId rs (remaining - amount)
                (setStock ns r.source_id (src.stock - amount)) with
            | (ns', .error e) => (ns', .error e)
            | (ns', .ok ms) =>
              (ns', .ok ((⟨r.conn_id, amount, r.source_id, custId, cur, r.lead_time⟩ :
                Movement) :: ms))
          else
            fulfillRoutes cur custId rs remaining ns

/-- Second pass of `_optimize_endgame` (`optimizer.py` lines 274-317):
for each still-active demand, route its remaining amount from reachable
sources, filtering routes that would arrive after the run's last day. -/
def fulfillDemands (custRoutes : List (String × List CRoute)) (cur total : ℤ) :
    List Demand → NodeMap → NodeMap × Except Err (List Movement)
  | [], ns => (ns, .ok [])
  | d :: ds, ns =>
    if d.remaining_amount ≤ 0 then fulfillDemands custRoutes cur total ds ns
    else
      let routes := ((custRoutes.lookup d.customer_id).getD []).filter
        (fun r => cur + r.lead_time ≤ total)
      if routes = [] then fulfillDemands custRoutes cur total ds ns
      else
        match fulfillRoutes cur d.customer_id (sortCRoutes routes) d.remaining_amount ns with
        | (ns', .error e) => (ns', .error e)
        | (ns', .ok ms) =>
          match fulfillDemands custRoutes cur total ds ns' with
          | (ns'', .error e) => (ns'', .error e)
          | (ns'', .ok ms') => (ns'', .ok (ms ++ ms'))

/-- `_optimize_endgame` (`optimizer.py` lines 225-319): drain refineries,
then fulfill remaining demands, mutating node stock in the second pass. -/
def optimizeEndgame (nodes : NodeMap) (conns : ConnMap) (demands : List Demand)
    (cur total : ℤ) : NodeMap × Except Err (List Movement) :=
  match drainAllRefineries nodes conns cur total nodes with
  | .error e => (nodes, .error e)
  | .ok ms1 =>
    match fulfillDemands (customerRoutes nodes conns) cur total demands nodes with
    | (ns', .error e) => (ns', .error e)
    | (ns', .ok ms2) => (ns', .ok (ms1 ++ ms2))

/-- `range(a, b)` over integers, as the list `[a, a+1, ..., b-1]`. -/
def intRange (a b : ℤ) : List ℤ :=
  (List.range (b - a).toNat).map (fun (i : ℕ) => a + (i : ℤ))

/-- The result handed back by the external LP solver: the reported status
string and the value assigned to each `(connection, day)` flow variable.
The CBC binary is outside the embedding, so its outcome is a parameter. -/
structure Solver where
  status : String
  value : String → ℤ → ℚ

/-- One flow variable of `_create_flow_variables`
(`optimizer.py` lines 321-353): its `(connection id, day)` key and upper
bound.  `min(daily_output, stock if non-refinery else inf)` is written
without the infinity: for a refinery the minimum is `daily_output`. -/
structure FlowVar where
  conn_id : String
  day : ℤ
  upBound : ℚ
deriving DecidableEq, Repr

/-- `_create_flow_variables` (`optimizer.py` lines 321-353); indexing
`self.nodes[conn.source]` / `self.nodes[conn.destination]` raises
`KeyError` when the endpoint is missing. -/
def createFlowVars (nodes : NodeMap) (cur h : ℤ) :
    ConnMap → Except Err (List FlowVar)
  | [] => .ok []
  | (cid, conn) :: rest =>
    match lookupNode nodes conn.source with
    | none => .error (.keyError conn.source)
    | some src =>
      match lookupNode nodes conn.destination with
      | none => .error (.keyError conn.destination)
      | some dst =>
        let maxOutflow :=
          if src.type == "refinery" then src.daily_output
          else min src.daily_output src.stock
        let maxInflow :=
          if dst.type == "customer" then dst.daily_input else dst.capacity - dst.stock
        let vars := (intRange cur (cur + h)).map
          (fun d => (⟨cid, d, min conn.max_capacity (min maxOutflow maxInflow)⟩ : FlowVar))
        match createFlowVars nodes cur h rest with
        | .error e => .error e
        | .ok vs => .ok (vars ++ vs)

/-- The `(conn_id, day)` keys of `flow_vars`, in construction order. -/
def flowKeys (conns : ConnMap) (cur h : ℤ) : List (String × ℤ) :=
  conns.flatMap (fun p => (intRange cur (cur + h)).map (fun d => (p.1, d)))

/-- One demand-fulfillment constraint added by
`_add_demand_fulfillment_constraints`: the flow-variable keys whose sum is
bounded below, and the bound. -/
structure DemandConstraint where
  customerId : String
  window : List ℤ
  terms : List (String × ℤ)
  rhs : ℚ
deriving DecidableEq, Repr

/-- `_add_demand_fulfillment_constraints` (`optimizer.py` lines 433-478):
for each demand with remaining amount, a non-empty overlap of its delivery
window with the horizon yields one constraint
`total_delivery >= min(remaining * fraction, daily_input * |window|)`,
with fraction 0.5 when the deadline is at most 3 days away, else 0.3.
Indexing `self.nodes[demand.customer_id]` raises `KeyError`. -/
def buildDemandConstraints (nodes : NodeMap) (conns : ConnMap) (cur h : ℤ) :
    List Demand → Except Err (List DemandConstraint)
  | [] => .ok []
  | d :: ds =>
    if d.remaining_amount ≤ 0 then buildDemandConstraints nodes conns cur h ds
    else if cur ≤ d.end_delivery_day then
      let window := intRange (max cur d.start_delivery_day)
        (min (cur + h) (d.end_delivery_day + 1))
      if window = [] then buildDemandConstraints nodes conns cur h ds
      else
        match lookupNode nodes d.customer_id with
        | none => .error (.keyError d.customer_id)
        | some n =>
          let terms := window.flatMap (fun day =>
            (conns.filter (fun p => p.2.destination == d.customer_id &&
              (flowKeys conns cur h).contains (p.1, day - p.2.lead_time_days))).map
              (fun p => (p.1, day - p.2.lead_time_days)))
          let rhs :=
            if d.end_delivery_day - cur ≤ 3 then
              min (d.remaining_amount * (1/2)) (n.daily_input * (window.length : ℚ))
            else
              min (d.remaining_amount * (3/10)) (n.daily_input * (window.length : ℚ))
          match buildDemandConstraints nodes conns cur h ds with
          | .error e => .error e
          | .ok cs => .ok (⟨d.customer_id, window, terms, rhs⟩ :: cs)
    else buildDemandConstraints nodes conns cur h ds

/-- `transport_costs` of `_build_objective_function`
(`optimizer.py` lines 357-364): sum over all flow variables of
flow × per-unit cost × distance. -/
def transportCosts (conns : ConnMap) (cur h : ℤ) (flows : String → ℤ → ℚ) : ℚ :=
  (conns.flatMap (fun p => (intRange cur (cur + h)).map
    (fun d => flows p.1 d * p.2.cost_per_unit * p.2.distance))).sum

/-- `co2_emissions` of `_build_objective_function`
(`optimizer.py` lines 366-373). -/
def co2Emissions (conns : ConnMap) (cur h : ℤ) (flows : String → ℤ → ℚ) : ℚ :=
  (conns.flatMap (fun p => (intRange cur (cur + h)).map
    (fun d => flows p.1 d * p.2.co2_per_unit * p.2.distance))).sum

/-- `overflow_prevention` of `_build_objective_function`
(`optimizer.py` lines 375-381): each refinery/tank contributes
`max(0, stock - capacity * 0.8) * overflow_weight`. -/
def overflowPrevention (nodes : NodeMap) (ow : ℚ) : ℚ :=
  ((nodes.filter (fun p => p.2.type == "refinery" || p.2.type == "tank")).map
    (fun p => max 0 (p.2.stock - p.2.capacity * (4/5)) * ow)).sum

/-- `_build_objective_function` (`optimizer.py` lines 355-387). -/
def buildObjective (nodes : NodeMap) (conns : ConnMap) (cur h : ℤ)
    (flows : String → ℤ → ℚ) (w : Weights) : ℚ :=
  w.cost * transportCosts conns cur h flows
    + w.co2 * co2Emissions conns cur h flows
    + overflowPrevention nodes w.overflow

/-- `_extract_movements` (`optimizer.py` lines 506-536): keep the
current-day variables with positive value. -/
def extractMovements (conns : ConnMap) (cur h : ℤ) (s : Solver) : List Movement :=
  (conns.flatMap (fun p => (intRange cur (cur + h)).map (fun d => (p.1, p.2, d)))).filterMap
    (fun q => if q.2.2 = cur ∧ 0 < s.value q.1 q.2.2 then
      some ⟨q.1, s.value q.1 q.2.2, q.2.1.source, q.2.1.destination, cur,
        q.2.1.lead_time_days⟩
      else none)

/-- `_optimize_normal` (`optimizer.py` lines 199-223): build variables,
objective and constraints, solve, and return `[]` unless the status is
`Optimal`. -/
def optimizeNormal (nodes : NodeMap) (conns : ConnMap) (demands : List Demand)
    (cur h : ℤ) (s : Solver) : Except Err (List Movement) :=
  match createFlowVars nodes cur h conns with
  | .error e => .error e
  | .ok _ =>
    match buildDemandConstraints nodes conns cur h demands with
    | .error e => .error e
    | .ok _ =>
      if s.status ≠ "Optimal" then .ok []
      else .ok (extractMovements conns cur h s)

/-- The endgame branch of `optimize` (`optimizer.py` lines 104-118):
critical-refinery pass, then `_optimize_endgame`; any raised error is
caught and yields the empty movement list. -/
def endgamePath (nodes : NodeMap) (conns : ConnMap) (demands : List Demand)
    (cur total : ℤ) : NodeMap × List Movement :=
  match handleCriticalRefineries nodes conns cur nodes [] with
  | .error _ => (nodes, [])
  | .ok (_, ms) =>
    match optimizeEndgame nodes conns demands cur total with
    | (ns', .error _) => (ns', [])
    | (ns', .ok ms2) => (ns', ms ++ ms2)

/-- The steady-state branch of `optimize` (`optimizer.py` lines 104-118):
critical-refinery pass, then `_optimize_normal`; any raised error is
caught and yields the empty movement list. -/
def normalPath (nodes : NodeMap) (conns : ConnMap) (demands : List Demand)
    (cur total : ℤ) (s : Solver) : NodeMap × List Movement :=
  match handleCriticalRefineries nodes conns cur nodes [] with
  | .error _ => (nodes, [])
  | .ok (_, ms) =>
    match optimizeNormal nodes conns demands cur (planningHorizon 7 total cur) s with
    | .error _ => (nodes, [])
    | .ok ms2 => (nodes, ms ++ ms2)

/-- `Optimizer.optimize` (`optimizer.py` lines 102-118) together with the
phase selection of `__init__`: the endgame liquidation path when
`total_days - current_day <= 5`, otherwise the LP path.  Returns the node
dict as left behind by the call (the endgame pass mutates stock) and the
day's movements. -/
def optimizeDay (nodes : NodeMap) (conns : ConnMap) (demands : List Demand)
    (cur total : ℤ) (s : Solver) : NodeMap × List Movement :=
  if isEndgame total cur then endgamePath nodes conns demands cur total
  else normalPath nodes conns demands cur total s

/-- The in-transit ledger of `main.py`: arrival day to the list of
`{"toNode": ..., "amount": ...}` shipments. -/
abbrev Ledger := List (ℤ × List (String × ℚ))

/-- `shipments_in_transit[arrival_day].append(...)` with creation of the
day's list when absent (`main.py` lines 394-398). -/
def ledgerAdd (led : Ledger) (day : ℤ) (entry : String × ℚ) : Ledger :=
  if (led.lookup day).isSome then
    led.map (fun p => if p.1 = day then (p.1, p.2 ++ [entry]) else p)
  else
    led ++ [(day, [entry])]

/-- The driver's `ApplyMovements` bookkeeping (`main.py` lines 383-404):
for each returned movement whose source is a known node, debit the source's
stock by the movement amount and enqueue the arrival at
`current_day + lead_time`. -/
def applyMovements (cur : ℤ) : NodeMap → Ledger → List Movement → NodeMap × Ledger
  | ns, led, [] => (ns, led)
  | ns, led, m :: ms =>
    match lookupNode ns m.fromNode with
    | none => applyMovements cur ns led ms
    | some src =>
      applyMovements cur (setStock ns m.fromNode (src.stock - m.amount))
        (ledgerAdd led (cur + m.leadTime) (m.toNode, m.amount)) ms

end Fuel

namespace Api

/-- An HTTP response to one request (`api_client.py`): status code and body
text.  A request for which no response is scripted models a
`requests.RequestException`. -/
structure Resp where
  status : ℕ
  body : String
deriving DecidableEq, Repr

/-- The mutable state of `APIClient`: the recorded session id (the
`SESSION-ID` header is present exactly when it is set). -/
structure ClientState where
  sessionId : Option String
deriving DecidableEq, Repr

/-- The endpoint of each POST the client actually issues, in order. -/
inductive Call where
  | start
  | endSess
deriving DecidableEq, Repr

/-- Outcome of a client method: returned boolean, state after the call,
unconsumed responses, and the POSTs issued. -/
structure Outcome where
  ok : Bool
  state : ClientState
  rest : List Resp
  calls : List Call
deriving DecidableEq, Repr

/-- The retry loop of `end_session` (`api_client.py` lines 169-205).
`r + 1` is the number of attempts left; `attempt < max_retries - 1`
corresponds to `0 < r`. -/
def endSessionGo (st : ClientState) : ℕ → List Resp → Outcome
  | 0, rs => ⟨false, st, rs, []⟩
  | r + 1, [] =>
    if r = 0 then ⟨false, st, [], [.endSess]⟩
    else
      let o := endSessionGo st r []
      ⟨o.ok, o.state, o.rest, .endSess :: o.calls⟩
  | r + 1, resp :: rest =>
    if resp.status = 200 then ⟨true, ⟨none⟩, rest, [.endSess]⟩
    else if r = 0 then ⟨false, st, rest, [.endSess]⟩
    else
      let o := endSessionGo st r rest
      ⟨o.ok, o.state, o.rest, .endSess :: o.calls⟩

/-- `end_session` (`api_client.py` lines 163-205): with no recorded session
id it returns `False` immediately, issuing no request at all. -/
def endSession (st : ClientState) (rs : List Resp) : Outcome :=
  match st.sessionId with
  | none => ⟨false, st, rs, []⟩
  | some _ => endSessionGo st 3 rs

/-- The retry loop of `start_session` (`api_client.py` lines 55-109).
On 200 the stripped body is the session id (an empty one is "not found");
on 409 the client first calls `end_session` and retries only when that
succeeded; on other statuses it retries until attempts run out. -/
def startSessionGo (st : ClientState) : ℕ → List Resp → Outcome
  | 0, rs => ⟨false, st, rs, []⟩
  | r + 1, [] =>
    if r = 0 then ⟨false, st, [], [.start]⟩
    else
      let o := startSessionGo st r []
      ⟨o.ok, o.state, o.rest, .start :: o.calls⟩
  | r + 1, resp :: rest =>
    if resp.status = 200 then
      let sid := resp.body.trim
      if sid = "" then ⟨false, st, rest, [.start]⟩
      else ⟨true, ⟨some sid⟩, rest, [.start]⟩
    else if resp.status = 409 then
      let o := endSession st rest
      if o.ok then
        if r = 0 then ⟨false, o.state, o.rest, .start :: o.calls⟩
        else
          let o' := startSessionGo o.state r o.rest
          ⟨o'.ok, o'.state, o'.rest, .start :: (o.calls ++ o'.calls)⟩
      else ⟨false, o.state, o.rest, .start :: o.calls⟩
    else if r = 0 then ⟨false, st, rest, [.start]⟩
    else
      let o := startSessionGo st r rest
      ⟨o.ok, o.state, o.rest, .start :: o.calls⟩

/-- `start_session` (`api_client.py` lines 53-109). -/
def startSession (st : ClientState) (rs : List Resp) : Outcome :=
  startSessionGo st 3 rs

end Api

namespace Fuel

/-- Scenario A network: one refinery (capacity 1000, output 100, stock 950). -/
def scenA_R : Node := ⟨"R", "refinery", 1000, 100, 0, 950⟩

/-- Scenario A network: one tank with ample headroom. -/
def scenA_T : Node := ⟨"T", "tank", 10000, 100, 1000, 0⟩

/-- Scenario A node map. -/
def scenA_nodes : NodeMap := [("R", scenA_R), ("T", scenA_T)]

/-- Scenario A connection: refinery to tank, capacity 500, lead time 1. -/
def scenA_conns : ConnMap :=
  [("K1", ⟨"K1", "R", "T", 1, 1, "pipeline", 500, 1/2, 1/5⟩)]

/-- Endgame scenario: a tank holding 100 units (daily output 100). -/
def endg_T1 : Node := ⟨"T1", "tank", 1000, 100, 100, 100⟩

/-- Endgame scenario: a customer with daily input 500. -/
def endg_C1 : Node := ⟨"C1", "customer", 0, 0, 500, 0⟩

/-- Endgame scenario node map: one tank, one customer, no refinery. -/
def endg_nodes : NodeMap := [("T1", endg_T1), ("C1", endg_C1)]

/-- Endgame scenario connection: tank to customer, lead time 1. -/
def endg_conns : ConnMap :=
  [("K1", ⟨"K1", "T1", "C1", 1, 1, "truck", 500, 1, 1/2⟩)]

/-- Endgame scenario demand: 100 units for the customer, window 35-42. -/
def endg_demands : List Demand := [⟨"D1", "C1", 100, 30, 35, 42, 100⟩]

/-- A solver outcome that is never consulted on the endgame path. -/
def endg_solver : Solver := ⟨"Optimal", fun _ _ => 0⟩

/-- The single movement the endgame pass emits in the endgame scenario. -/
def endg_mv : Movement := ⟨"K1", 100, "T1", "C1", 38, 1⟩

/-- Ghost scenario: a network whose second connection originates at a node
id ("ghost") absent from the node dict, so the endgame demand pass raises
`KeyError` after the critical pass has already emitted a movement. -/
def ghost_nodes : NodeMap :=
  [("R", ⟨"R", "refinery", 1000, 100, 0, 950⟩),
   ("T", ⟨"T", "tank", 10000, 100, 1000, 0⟩),
   ("C1", ⟨"C1", "customer", 0, 0, 500, 0⟩)]

/-- Ghost scenario connections: a good refinery-to-tank link and a link
from the missing node "ghost" to the customer. -/
def ghost_conns : ConnMap :=
  [("K1", ⟨"K1", "R", "T", 1, 1, "pipeline", 500, 1/2, 1/5⟩),
   ("K2", ⟨"K2", "ghost", "C1", 1, 1, "truck", 500, 1, 1/2⟩)]

/-- Ghost scenario demand: 50 units for the customer. -/
def ghost_demands : List Demand := [⟨"D1", "C1", 50, 30, 35, 42, 50⟩]

/-- Two-tank scenario: a critical refinery with two outgoing links, so the
critical pass ships its daily output twice in one day. -/
def twoR_nodes : NodeMap :=
  [("R", ⟨"R", "refinery", 1000, 100, 0, 950⟩),
   ("T1", ⟨"T1", "tank", 10000, 100, 1000, 0⟩),
   ("T2", ⟨"T2", "tank", 10000, 100, 1000, 0⟩)]

/-- Two-tank scenario connections: refinery to each tank. -/
def twoR_conns : ConnMap :=
  [("K1", ⟨"K1", "R", "T1", 1, 1, "pipeline", 500, 1/2, 1/5⟩),
   ("K2", ⟨"K2", "R", "T2", 1, 2, "pipeline", 500, 1/2, 1/5⟩)]

/-- Sum of the amounts of the movements leaving `nid`
(*total units shipped out of a node on a day*). -/
def sumFrom (nid : String) (ms : List Movement) : ℚ :=
  ((ms.filter (fun m => m.fromNode == nid)).map Movement.amount).sum

end Fuel

/-- C9: a fresh client (no recorded session id) whose start request is
answered with HTTP 409.  `start_session` calls `end_session`, which returns
`False` at once because `self.session_id` is unset, so `start_session`
gives up: it returns `False`, issues no end-session request, and never
retries the start even though a 200 answer is waiting in the script. -/
theorem c9_start_session_409_gives_up :
    Api.startSession ⟨none⟩ [⟨409, "conflict"⟩, ⟨200, "sid-1"⟩]
      = ⟨false, ⟨none⟩, [⟨200, "sid-1"⟩], [.start]⟩ := by
  decide

/-- C7: the endgame mode is selected exactly when
`total_days - current_day <= 5`; the endgame weights are cost 0.1,
co2 0.1, demand 10, overflow 50 and the steady-state weights cost 1,
co2 0.5, demand 2, overflow 5; in endgame mode `optimize` takes the
endgame liquidation branch (for every solver outcome); and a run of
length 42 at day 38 is in endgame mode. -/
theorem c7_endgame_selection :
    (∀ total cur : ℤ, Fuel.isEndgame total cur = true ↔ total - cur ≤ 5) ∧
    Fuel.mkWeights true = ⟨1/10, 1/10, 10, 50⟩ ∧
    Fuel.mkWeights false = ⟨1, 1/2, 2, 5⟩ ∧
    (∀ nodes conns demands cur total s, Fuel.isEndgame total cur = true →
      Fuel.optimizeDay nodes conns demands cur total s
        = Fuel.endgamePath nodes conns demands cur total) ∧
    Fuel.isEndgame 42 38 = true := by
  refine ⟨fun total cur => ?_, rfl, rfl, fun nodes conns demands cur total s h => ?_, ?_⟩
  · simp [Fuel.isEndgame]
  · simp [Fuel.optimizeDay, h]
  · decide

/-- C7 (witness): with run length 42 and current day 38 the endgame branch
is taken, whatever the solver would have answered. -/
theorem c7_endgame_selection_witness :
    Fuel.optimizeDay [] [] [] 38 42 ⟨"Optimal", fun _ _ => 0⟩
      = Fuel.endgamePath [] [] [] 38 42 :=
  c7_endgame_selection.2.2.2.1 [] [] [] 38 42 ⟨"Optimal", fun _ _ => 0⟩ (by decide)

/-- C8: the assembled objective equals
`cost_weight * Σ flow·cost·distance + co2_weight * Σ flow·co2·distance
 + overflow_weight * Σ max(0, stock - 0.8·capacity)` over refinery and
tank nodes (in the source the overflow weight sits inside the sum; here it
is factored out, as the claim states it). -/
theorem c8_objective_shape (nodes : Fuel.NodeMap) (conns : Fuel.ConnMap)
    (cur h : ℤ) (flows : String → ℤ → ℚ) (w : Fuel.Weights) :
    Fuel.buildObjective nodes conns cur h flows w
      = w.cost * Fuel.transportCosts conns cur h flows
        + w.co2 * Fuel.co2Emissions conns cur h flows
        + w.overflow *
          ((nodes.filter (fun p => p.2.type == "refinery" || p.2.type == "tank")).map
            (fun p => max 0 (p.2.stock - (4/5) * p.2.capacity))).sum := by
  have hc : (fun p : String × Fuel.Node =>
        max 0 (p.2.stock - p.2.capacity * (4/5)) * w.overflow)
      = (fun p => max 0 (p.2.stock - (4/5) * p.2.capacity) * w.overflow) := by
    funext p
    rw [mul_comm p.2.capacity]
  rw [Fuel.buildObjective, Fuel.overflowPrevention, hc, List.sum_map_mul_right]
  ring

/-- C4 (counterexample): on Scenario A the critical-refinery drain pass on
day 0 emits exactly one movement, but its amount is 100 — the minimum in
`_handle_critical_refineries` includes the node's daily output (100), so
the claimed amount of 500 is wrong. -/
theorem c4_counterexample :
    Fuel.handleCriticalRefineries Fuel.scenA_nodes Fuel.scenA_conns 0 Fuel.scenA_nodes []
      = .ok ([((1, "T"), 100)], [⟨"K1", 100, "R", "T", 0, 1⟩]) ∧
    (⟨"K1", 100, "R", "T", 0, 1⟩ : Fuel.Movement).amount ≠ 500 := by
  constructor
  · simp +decide [Fuel.handleCriticalRefineries, Fuel.drainCritical, Fuel.scenA_nodes,
      Fuel.scenA_conns, Fuel.scenA_R, Fuel.scenA_T, Fuel.refineryRoutes, Fuel.routesFrom,
      Fuel.sortRoutes, Fuel.insertRoute, Fuel.lookupNode, Fuel.projGet, Fuel.projAdd,
      List.lookup, Fuel.Movement.mk.injEq]
    norm_num
  · simp +decide [Fuel.Movement.amount]

/-- C4 (amended): on Scenario A the critical-refinery drain pass on day 0
emits exactly one movement of 100 units, capped by the refinery's daily
output of 100 (the deliverable amount is the minimum of remaining stock,
link capacity, destination space and daily output). -/
theorem c4_amended :
    Fuel.handleCriticalRefineries Fuel.scenA_nodes Fuel.scenA_conns 0 Fuel.scenA_nodes []
      = .ok ([((1, "T"), 100)], [⟨"K1", 100, "R", "T", 0, 1⟩]) := by
  simp +decide [Fuel.handleCriticalRefineries, Fuel.drainCritical, Fuel.scenA_nodes,
    Fuel.scenA_conns, Fuel.scenA_R, Fuel.scenA_T, Fuel.refineryRoutes, Fuel.routesFrom,
    Fuel.sortRoutes, Fuel.insertRoute, Fuel.lookupNode, Fuel.projGet, Fuel.projAdd,
    List.lookup, Fuel.Movement.mk.injEq]
  norm_num

/-- C2 (counterexample): on a non-endgame day with a non-optimal solver
status, `optimize()` does not return an empty movement list — the
critical-refinery pass's movement (Scenario A's 100-unit shipment) is
still returned; only the LP contribution is empty. -/
theorem c2_counterexample :
    (Fuel.optimizeDay Fuel.scenA_nodes Fuel.scenA_conns [] 0 42
        ⟨"Infeasible", fun _ _ => 0⟩).2 = [⟨"K1", 100, "R", "T", 0, 1⟩] ∧
    ([⟨"K1", 100, "R", "T", 0, 1⟩] : List Fuel.Movement) ≠ [] := by
  constructor
  · simp +decide [Fuel.optimizeDay, Fuel.isEndgame, Fuel.normalPath, Fuel.optimizeNormal,
      Fuel.planningHorizon, Fuel.handleCriticalRefineries, Fuel.drainCritical,
      Fuel.createFlowVars, Fuel.buildDemandConstraints, Fuel.intRange,
      Fuel.scenA_nodes, Fuel.scenA_conns, Fuel.scenA_R, Fuel.scenA_T,
      Fuel.refineryRoutes, Fuel.routesFrom, Fuel.sortRoutes, Fuel.insertRoute,
      Fuel.lookupNode, Fuel.projGet, Fuel.projAdd, List.lookup, Fuel.Movement.mk.injEq]
    norm_num
  · simp

/-- C2 (amended): on a non-endgame day with a non-optimal solver status
(and no error raised while building the model), `_optimize_normal`
contributes no movements, so `optimize()` returns exactly the
critical-refinery pass's movements, and the node dict is untouched by the
allocation call. -/
theorem c2_amended (nodes : Fuel.NodeMap) (conns : Fuel.ConnMap)
    (demands : List Fuel.Demand) (cur total : ℤ) (s : Fuel.Solver)
    (hend : Fuel.isEndgame total cur = false)
    (hstat : s.status ≠ "Optimal")
    (proj : Fuel.ProjStocks) (cms : List Fuel.Movement)
    (hcrit : Fuel.handleCriticalRefineries nodes conns cur nodes [] = .ok (proj, cms))
    (fv : List Fuel.FlowVar)
    (hfv : Fuel.createFlowVars nodes cur (Fuel.planningHorizon 7 total cur) conns = .ok fv)
    (cs : List Fuel.DemandConstraint)
    (hcs : Fuel.buildDemandConstraints nodes conns cur (Fuel.planningHorizon 7 total cur)
      demands = .ok cs) :
    Fuel.optimizeDay nodes conns demands cur total s = (nodes, cms) := by
  simp [Fuel.optimizeDay, hend, Fuel.normalPath, hcrit, Fuel.optimizeNormal, hfv, hcs, hstat]

/-- C2 (witness): Scenario A on day 0 of a 42-day run with solver status
`Infeasible` satisfies the amended statement's hypotheses. -/
theorem c2_amended_witness :
    Fuel.optimizeDay Fuel.scenA_nodes Fuel.scenA_conns [] 0 42
        ⟨"Infeasible", fun _ _ => 0⟩
      = (Fuel.scenA_nodes, [⟨"K1", 100, "R", "T", 0, 1⟩]) := by
  refine c2_amended Fuel.scenA_nodes Fuel.scenA_conns [] 0 42
    ⟨"Infeasible", fun _ _ => 0⟩ (by decide) (by decide)
    [((1, "T"), 100)] [⟨"K1", 100, "R", "T", 0, 1⟩] ?_
    [⟨"K1", 0, 100⟩, ⟨"K1", 1, 100⟩, ⟨"K1", 2, 100⟩, ⟨"K1", 3, 100⟩,
      ⟨"K1", 4, 100⟩, ⟨"K1", 5, 100⟩, ⟨"K1", 6, 100⟩] ?_ [] ?_
  · simp +decide [Fuel.handleCriticalRefineries, Fuel.drainCritical, Fuel.scenA_nodes,
      Fuel.scenA_conns, Fuel.scenA_R, Fuel.scenA_T, Fuel.refineryRoutes, Fuel.routesFrom,
      Fuel.sortRoutes, Fuel.insertRoute, Fuel.lookupNode, Fuel.projGet, Fuel.projAdd,
      List.lookup, Fuel.Movement.mk.injEq]
    norm_num
  · simp +decide [Fuel.createFlowVars, Fuel.planningHorizon, Fuel.intRange,
      Fuel.scenA_nodes, Fuel.scenA_conns, Fuel.scenA_R, Fuel.scenA_T, Fuel.lookupNode,
      List.lookup, Fuel.FlowVar.mk.injEq]
  · simp +decide [Fuel.buildDemandConstraints]

/-- C10: `optimize` never propagates an error.  If the critical pass, the
endgame pass or the LP path raises, the day's movement list is empty —
even discarding movements the critical pass had already produced. -/
theorem c10_optimize_swallows_errors (nodes : Fuel.NodeMap) (conns : Fuel.ConnMap)
    (demands : List Fuel.Demand) (cur total : ℤ) (s : Fuel.Solver)
    (herr : (∃ e, Fuel.handleCriticalRefineries nodes conns cur nodes [] = .error e) ∨
      (Fuel.isEndgame total cur = true ∧
        ∃ e, (Fuel.optimizeEndgame nodes conns demands cur total).2 = .error e) ∨
      (Fuel.isEndgame total cur = false ∧
        ∃ e, Fuel.optimizeNormal nodes conns demands cur
          (Fuel.planningHorizon 7 total cur) s = .error e)) :
    (Fuel.optimizeDay nodes conns demands cur total s).2 = [] := by
  rcases herr with ⟨e, he⟩ | ⟨hend, e, he⟩ | ⟨hend, e, he⟩
  · by_cases h : Fuel.isEndgame total cur
    · simp [Fuel.optimizeDay, h, Fuel.endgamePath, he]
    · simp only [Bool.not_eq_true] at h
      simp [Fuel.optimizeDay, h, Fuel.normalPath, he]
  · rcases hoe : Fuel.optimizeEndgame nodes conns demands cur total with ⟨ns2, r⟩
    rw [hoe] at he
    rcases hcr : Fuel.handleCriticalRefineries nodes conns cur nodes [] with e2 | ⟨p, ms⟩
    · simp [Fuel.optimizeDay, hend, Fuel.endgamePath, hcr]
    · simp only at he
      simp [Fuel.optimizeDay, hend, Fuel.endgamePath, hcr, hoe, he]
  · rcases hcr : Fuel.handleCriticalRefineries nodes conns cur nodes [] with e2 | ⟨p, ms⟩
    · simp [Fuel.optimizeDay, hend, Fuel.normalPath, hcr]
    · simp [Fuel.optimizeDay, hend, Fuel.normalPath, hcr, he]

/-- C10 (witness): in the ghost scenario on day 40 of 42 the endgame
demand pass raises `KeyError("ghost")`, and `optimize` returns the empty
movement list even though the critical pass emitted a shipment. -/
theorem c10_witness :
    (Fuel.optimizeDay Fuel.ghost_nodes Fuel.ghost_conns Fuel.ghost_demands 40 42
      Fuel.endg_solver).2 = [] := by
  refine c10_optimize_swallows_errors Fuel.ghost_nodes Fuel.ghost_conns Fuel.ghost_demands
    40 42 Fuel.endg_solver (Or.inr (Or.inl ⟨by decide, ⟨.keyError "ghost", ?_⟩⟩))
  simp +decide [Fuel.optimizeEndgame, Fuel.drainAllRefineries, Fuel.drainEndgameRoutes,
    Fuel.fulfillDemands, Fuel.fulfillRoutes, Fuel.customerRoutes, Fuel.refineryRoutes,
    Fuel.routesFrom, Fuel.sortRoutes, Fuel.insertRoute, Fuel.sortCRoutes, Fuel.insertCRoute,
    Fuel.lookupNode, Fuel.setStock, Fuel.ghost_nodes, Fuel.ghost_conns, Fuel.ghost_demands,
    List.lookup] <;> norm_num

/-- C1: in the endgame scenario on day 38 of 42 the endgame demand pass
already deducts the shipped 100 units from the tank's stock
(`optimizer.py` line 317), and the driver's `ApplyMovements` bookkeeping
(`main.py` line 392) debits the same 100 again instead of reconciling, so
after allocation and bookkeeping the tank's stock is -100 < 0. -/
theorem c1_endgame_double_debit :
    (Fuel.optimizeDay Fuel.endg_nodes Fuel.endg_conns Fuel.endg_demands 38 42
        Fuel.endg_solver).2 = [Fuel.endg_mv] ∧
    Fuel.lookupNode (Fuel.applyMovements 38
        (Fuel.optimizeDay Fuel.endg_nodes Fuel.endg_conns Fuel.endg_demands 38 42
          Fuel.endg_solver).1 []
        (Fuel.optimizeDay Fuel.endg_nodes Fuel.endg_conns Fuel.endg_demands 38 42
          Fuel.endg_solver).2).1 "T1"
      = some ⟨"T1", "tank", 1000, 100, 100, -100⟩ ∧
    ((-100 : ℚ) < 0) := by
  refine ⟨?_, ?_, by norm_num⟩ <;>
    (simp +decide [Fuel.optimizeDay, Fuel.isEndgame, Fuel.endgamePath,
      Fuel.handleCriticalRefineries, Fuel.optimizeEndgame, Fuel.drainAllRefineries,
      Fuel.drainEndgameRoutes, Fuel.fulfillDemands, Fuel.fulfillRoutes,
      Fuel.customerRoutes, Fuel.refineryRoutes, Fuel.routesFrom, Fuel.sortRoutes,
      Fuel.insertRoute, Fuel.sortCRoutes, Fuel.insertCRoute, Fuel.lookupNode,
      Fuel.setStock, Fuel.applyMovements, Fuel.ledgerAdd, Fuel.endg_nodes,
      Fuel.endg_conns, Fuel.endg_demands, Fuel.endg_T1, Fuel.endg_C1, Fuel.endg_mv,
      List.lookup, Fuel.Movement.mk.injEq, Fuel.Node.mk.injEq] <;> norm_num)

/-- C5 (counterexample): the two-tank scenario's critical pass ships 100
units on each of the refinery's two links on day 0, so the day's total
outflow from the refinery is 200, exceeding its daily output cap of 100 —
the cap bounds each movement, not their sum. -/
theorem c5_counterexample :
    (Fuel.optimizeDay Fuel.twoR_nodes Fuel.twoR_conns [] 0 42
        ⟨"Infeasible", fun _ _ => 0⟩).2
      = [⟨"K1", 100, "R", "T1", 0, 1⟩, ⟨"K2", 100, "R", "T2", 0, 2⟩] ∧
    Fuel.sumFrom "R" [⟨"K1", 100, "R", "T1", 0, 1⟩, ⟨"K2", 100, "R", "T2", 0, 2⟩] = 200 ∧
    Fuel.lookupNode Fuel.twoR_nodes "R" = some ⟨"R", "refinery", 1000, 100, 0, 950⟩ ∧
    ¬ ((200 : ℚ) ≤ 100) := by
  refine ⟨?_, ?_, by decide, by norm_num⟩
  · simp +decide [Fuel.optimizeDay, Fuel.isEndgame, Fuel.normalPath, Fuel.optimizeNormal,
      Fuel.planningHorizon, Fuel.handleCriticalRefineries, Fuel.drainCritical,
      Fuel.createFlowVars, Fuel.buildDemandConstraints, Fuel.intRange,
      Fuel.twoR_nodes, Fuel.twoR_conns, Fuel.refineryRoutes, Fuel.routesFrom,
      Fuel.sortRoutes, Fuel.insertRoute, Fuel.lookupNode, Fuel.projGet, Fuel.projAdd,
      List.lookup, instBEqProd, Fuel.Movement.mk.injEq] <;> norm_num
  · simp +decide [Fuel.sumFrom, Fuel.Movement.amount] <;> norm_num

theorem Fuel.sumFrom_nil (k : String) : Fuel.sumFrom k [] = 0 := rfl

theorem Fuel.sumFrom_cons (k : String) (m : Fuel.Movement) (ms : List Fuel.Movement) :
    Fuel.sumFrom k (m :: ms)
      = (if m.fromNode = k then m.amount else 0) + Fuel.sumFrom k ms := by
  by_cases h : m.fromNode = k <;> simp [Fuel.sumFrom, List.filter_cons, h]

theorem Fuel.sumFrom_append (k : String) (ms1 ms2 : List Fuel.Movement) :
    Fuel.sumFrom k (ms1 ++ ms2) = Fuel.sumFrom k ms1 + Fuel.sumFrom k ms2 := by
  simp [Fuel.sumFrom, List.filter_append]

theorem Fuel.sumFrom_eq_zero {k : String} {ms : List Fuel.Movement}
    (h : ∀ m ∈ ms, m.fromNode ≠ k) : Fuel.sumFrom k ms = 0 := by
  induction ms with
  | nil => rfl
  | cons m ms ih =>
    rw [Fuel.sumFrom_cons, if_neg (h m (List.mem_cons_self m ms)), zero_add]
    exact ih (fun m' hm' => h m' (List.mem_cons_of_mem m hm'))

theorem Fuel.lookupList_cons_eq {α β : Type} [BEq α] [LawfulBEq α] (a : α) (b : β)
    (t : List (α × β)) : List.lookup a ((a, b) :: t) = some b := by
  simp [List.lookup]

theorem Fuel.lookupList_cons_ne {α β : Type} [BEq α] [LawfulBEq α] {k a : α} (b : β)
    (t : List (α × β)) (h : ¬ (k = a)) :
    List.lookup k ((a, b) :: t) = List.lookup k t := by
  have hb : (k == a) = false := beq_eq_false_iff_ne.mpr h
  simp [List.lookup, hb]

theorem Fuel.lookup_eq_some_of_mem_nodup {l : List (String × Fuel.Node)} {k : String}
    {v : Fuel.Node} (hnd : (l.map Prod.fst).Nodup) (hm : (k, v) ∈ l) :
    List.lookup k l = some v := by
  induction l with
  | nil => simp at hm
  | cons p t ih =>
    obtain ⟨a, b⟩ := p
    simp only [List.map_cons, List.nodup_cons] at hnd
    rcases List.mem_cons.mp hm with heq | hmem
    · rw [← heq]
      exact Fuel.lookupList_cons_eq k v t
    · have hka : ¬ (k = a) := by
        rintro rfl
        exact hnd.1 (List.mem_map_of_mem Prod.fst hmem)
      rw [Fuel.lookupList_cons_ne b t hka]
      exact ih hnd.2 hmem

theorem Fuel.setStock_cons (a : String) (b : Fuel.Node) (t : List (String × Fuel.Node))
    (k : String) (s : ℚ) :
    Fuel.setStock ((a, b) :: t) k s
      = (if a = k then (a, { b with stock := s }) else (a, b)) :: Fuel.setStock t k s := by
  by_cases hak : a = k <;> simp [Fuel.setStock, hak]

theorem Fuel.lookup_setStock (ns : Fuel.NodeMap) (k k' : String) (s : ℚ) :
    Fuel.lookupNode (Fuel.setStock ns k s) k'
      = (Fuel.lookupNode ns k').map
          (fun n => if k' = k then { n with stock := s } else n) := by
  induction ns with
  | nil => rfl
  | cons p t ih =>
    obtain ⟨a, b⟩ := p
    rw [Fuel.setStock_cons]
    by_cases hak : a = k
    · rw [if_pos hak]
      by_cases hk' : k' = a
      · have e1 : Fuel.lookupNode ((a, { b with stock := s }) :: Fuel.setStock t k s) k'
            = some { b with stock := s } := by
          unfold Fuel.lookupNode
          rw [hk']
          exact Fuel.lookupList_cons_eq a _ _
        have e2 : Fuel.lookupNode ((a, b) :: t) k' = some b := by
          unfold Fuel.lookupNode
          rw [hk']
          exact Fuel.lookupList_cons_eq a b t
        rw [e1, e2, Option.map_some', if_pos (hk'.trans hak)]
      · have e1 : Fuel.lookupNode ((a, { b with stock := s }) :: Fuel.setStock t k s) k'
            = Fuel.lookupNode (Fuel.setStock t k s) k' :=
          Fuel.lookupList_cons_ne _ _ hk'
        have e2 : Fuel.lookupNode ((a, b) :: t) k' = Fuel.lookupNode t k' :=
          Fuel.lookupList_cons_ne b t hk'
        rw [e1, e2, ih]
    · rw [if_neg hak]
      by_cases hk' : k' = a
      · have hkk : ¬ (k' = k) := by
          intro h
          exact hak (by rw [← hk']; exact h)
        have e1 : Fuel.lookupNode ((a, b) :: Fuel.setStock t k s) k' = some b := by
          unfold Fuel.lookupNode
          rw [hk']
          exact Fuel.lookupList_cons_eq a b _
        have e2 : Fuel.lookupNode ((a, b) :: t) k' = some b := by
          unfold Fuel.lookupNode
          rw [hk']
          exact Fuel.lookupList_cons_eq a b t
        rw [e1, e2, Option.map_some', if_neg hkk]
      · have e1 : Fuel.lookupNode ((a, b) :: Fuel.setStock t k s) k'
            = Fuel.lookupNode (Fuel.setStock t k s) k' :=
          Fuel.lookupList_cons_ne b _ hk'
        have e2 : Fuel.lookupNode ((a, b) :: t) k' = Fuel.lookupNode t k' :=
          Fuel.lookupList_cons_ne b t hk'
        rw [e1, e2, ih]

theorem Fuel.mem_insertCRoute {x r : Fuel.CRoute} {l : List Fuel.CRoute}
    (h : x ∈ Fuel.insertCRoute r l) : x = r ∨ x ∈ l := by
  induction l with
  | nil => simpa [Fuel.insertCRoute] using h
  | cons s t ih =>
    by_cases hle : r.lead_time ≤ s.lead_time
    · simpa [Fuel.insertCRoute, hle, List.mem_cons] using h
    · simp only [Fuel.insertCRoute, if_neg hle, List.mem_cons] at h
      rcases h with h | h
      · exact Or.inr (List.mem_cons.mpr (Or.inl h))
      · rcases ih h with h' | h'
        · exact Or.inl h'
        · exact Or.inr (List.mem_cons.mpr (Or.inr h'))

theorem Fuel.mem_sortCRoutes {x : Fuel.CRoute} {l : List Fuel.CRoute}
    (h : x ∈ Fuel.sortCRoutes l) : x ∈ l := by
  induction l with
  | nil => simpa [Fuel.sortCRoutes] using h
  | cons r t ih =>
    rcases Fuel.mem_insertCRoute (by simpa [Fuel.sortCRoutes] using h) with h' | h'
    · exact List.mem_cons.mpr (Or.inl h')
    · exact List.mem_cons.mpr (Or.inr (ih h'))

theorem Fuel.mem_insertRoute {x r : Fuel.Route} {l : List Fuel.Route}
    (h : x ∈ Fuel.insertRoute r l) : x = r ∨ x ∈ l := by
  induction l with
  | nil => simpa [Fuel.insertRoute] using h
  | cons s t ih =>
    by_cases hle : r.lead_time ≤ s.lead_time
    · simpa [Fuel.insertRoute, hle, List.mem_cons] using h
    · simp only [Fuel.insertRoute, if_neg hle, List.mem_cons] at h
      rcases h with h | h
      · exact Or.inr (List.mem_cons.mpr (Or.inl h))
      · rcases ih h with h' | h'
        · exact Or.inl h'
        · exact Or.inr (List.mem_cons.mpr (Or.inr h'))

theorem Fuel.mem_sortRoutes {x : Fuel.Route} {l : List Fuel.Route}
    (h : x ∈ Fuel.sortRoutes l) : x ∈ l := by
  induction l with
  | nil => simpa [Fuel.sortRoutes] using h
  | cons r t ih =>
    rcases Fuel.mem_insertRoute (by simpa [Fuel.sortRoutes] using h) with h' | h'
    · exact List.mem_cons.mpr (Or.inl h')
    · exact List.mem_cons.mpr (Or.inr (ih h'))

theorem Fuel.intRange_eq_nil_iff {a b : ℤ} : Fuel.intRange a b = [] ↔ b ≤ a := by
  unfold Fuel.intRange
  rw [List.map_eq_nil_iff, List.range_eq_nil]
  omega

theorem Fuel.drainCritical_spec (nodesAll : Fuel.NodeMap) (cur : ℤ) (node : Fuel.Node)
    (nid : String) :
    ∀ (rs : List Fuel.Route) (rem : ℚ) (proj proj' : Fuel.ProjStocks)
      (ms : List Fuel.Movement),
      Fuel.drainCritical nodesAll cur node nid rs rem proj = .ok (proj', ms) →
      ∀ m ∈ ms, m.postedDay = cur ∧ m.fromNode = nid ∧ m.amount ≤ node.daily_output := by
  intro rs
  induction rs with
  | nil =>
    intro rem proj proj' ms h m hm
    simp only [Fuel.drainCritical, Except.ok.injEq, Prod.mk.injEq] at h
    rw [← h.2] at hm
    simp at hm
  | cons r rs ih =>
    intro rem proj proj' ms h m hm
    rw [Fuel.drainCritical] at h
    by_cases hrem : rem ≤ 0
    · rw [if_pos hrem] at h
      simp only [Except.ok.injEq, Prod.mk.injEq] at h
      rw [← h.2] at hm
      simp at hm
    · rw [if_neg hrem] at h
      rcases hlk : Fuel.lookupNode nodesAll r.dest_id with _ | dest <;> rw [hlk] at h
      · simp at h
      · simp only [] at h
        by_cases hamt : 0 < min (min rem r.max_capacity)
            (min (if dest.type == "tank" then
                dest.capacity - dest.stock - Fuel.projGet proj (cur + r.lead_time, r.dest_id)
              else dest.daily_input) node.daily_output)
        · rw [if_pos hamt] at h
          rcases hrec : Fuel.drainCritical nodesAll cur node nid rs
              (rem - min (min rem r.max_capacity)
                (min (if dest.type == "tank" then
                    dest.capacity - dest.stock -
                      Fuel.projGet proj (cur + r.lead_time, r.dest_id)
                  else dest.daily_input) node.daily_output))
              (Fuel.projAdd proj (cur + r.lead_time, r.dest_id)
                (min (min rem r.max_capacity)
                  (min (if dest.type == "tank" then
                      dest.capacity - dest.stock -
                        Fuel.projGet proj (cur + r.lead_time, r.dest_id)
                    else dest.daily_input) node.daily_output)))
            with e | pm <;> rw [hrec] at h
          · simp at h
          · obtain ⟨proj2, ms2⟩ := pm
            simp only [Except.ok.injEq, Prod.mk.injEq] at h
            rw [← h.2] at hm
            rcases List.mem_cons.mp hm with rfl | hm'
            · exact ⟨rfl, rfl, le_trans (min_le_right _ _) (min_le_right _ _)⟩
            · exact ih _ _ _ _ hrec m hm'
        · rw [if_neg hamt] at h
          exact ih _ _ _ _ h m hm

theorem Fuel.handleCriticalRefineries_spec (nodesAll : Fuel.NodeMap)
    (conns : Fuel.ConnMap) (cur : ℤ) :
    ∀ (l : List (String × Fuel.Node)) (proj proj' : Fuel.ProjStocks)
      (ms : List Fuel.Movement),
      Fuel.handleCriticalRefineries nodesAll conns cur l proj = .ok (proj', ms) →
      ∀ m ∈ ms, m.postedDay = cur ∧
        ∃ nid node, (nid, node) ∈ l ∧ m.fromNode = nid ∧ node.type = "refinery" ∧
          m.amount ≤ node.daily_output := by
  intro l
  induction l with
  | nil =>
    intro proj proj' ms h m hm
    simp only [Fuel.handleCriticalRefineries, Except.ok.injEq, Prod.mk.injEq] at h
    rw [← h.2] at hm
    simp at hm
  | cons p rest ih =>
    obtain ⟨nid, node⟩ := p
    intro proj proj' ms h m hm
    rw [Fuel.handleCriticalRefineries] at h
    by_cases htype : node.type == "refinery"
    · rw [if_pos htype] at h
      by_cases hcap : node.capacity = 0
      · rw [if_pos hcap] at h
        simp at h
      · rw [if_neg hcap] at h
        simp only [] at h
        by_cases hcrit : 70 < node.stock / node.capacity * 100 ∨
            node.capacity * (9/10) < node.stock + node.daily_output
        · rw [if_pos hcrit] at h
          rcases hdr : Fuel.drainCritical nodesAll cur node nid
              (Fuel.sortRoutes (((Fuel.refineryRoutes nodesAll conns).lookup nid).getD []))
              node.stock proj with e | pm <;> rw [hdr] at h
          · simp at h
          · obtain ⟨proj2, ms1⟩ := pm
            simp only [] at h
            rcases hrest : Fuel.handleCriticalRefineries nodesAll conns cur rest proj2
              with e | pm2 <;> rw [hrest] at h
            · simp at h
            · obtain ⟨proj3, ms3⟩ := pm2
              simp only [Except.ok.injEq, Prod.mk.injEq] at h
              rw [← h.2] at hm
              rcases List.mem_append.mp hm with hm1 | hm2
              · obtain ⟨hday, hfrom, hamt⟩ :=
                  Fuel.drainCritical_spec nodesAll cur node nid _ _ _ _ _ hdr m hm1
                exact ⟨hday, nid, node, List.mem_cons_self _ _, hfrom,
                  by simpa using htype, hamt⟩
              · obtain ⟨hday, nid', node', hmem, hr⟩ := ih _ _ _ hrest m hm2
                exact ⟨hday, nid', node', List.mem_cons_of_mem _ hmem, hr⟩
        · rw [if_neg hcrit] at h
          obtain ⟨hday, nid', node', hmem, hr⟩ := ih _ _ _ h m hm
          exact ⟨hday, nid', node', List.mem_cons_of_mem _ hmem, hr⟩
    · rw [if_neg htype] at h
      obtain ⟨hday, nid', node', hmem, hr⟩ := ih _ _ _ h m hm
      exact ⟨hday, nid', node', List.mem_cons_of_mem _ hmem, hr⟩

theorem Fuel.drainEndgameRoutes_spec (nodesAll : Fuel.NodeMap) (cur total : ℤ)
    (node : Fuel.Node) (nid : String) :
    ∀ (rs : List Fuel.Route) (rem : ℚ) (ms : List Fuel.Movement),
      Fuel.drainEndgameRoutes nodesAll cur total node nid rs rem = .ok ms →
      ∀ m ∈ ms, m.postedDay = cur ∧ cur + m.leadTime ≤ total ∧
        m.fromNode = nid ∧ m.amount ≤ node.daily_output := by
  intro rs
  induction rs with
  | nil =>
    intro rem ms h m hm
    simp only [Fuel.drainEndgameRoutes, Except.ok.injEq] at h
    rw [← h] at hm
    simp at hm
  | cons r rs ih =>
    intro rem ms h m hm
    rw [Fuel.drainEndgameRoutes] at h
    by_cases hrem : rem ≤ 0
    · rw [if_pos hrem] at h
      simp only [Except.ok.injEq] at h
      rw [← h] at hm
      simp at hm
    · rw [if_neg hrem] at h
      by_cases hlate : total < cur + r.lead_time
      · rw [if_pos hlate] at h
        exact ih _ _ h m hm
      · rw [if_neg hlate] at h
        rcases hlk : Fuel.lookupNode nodesAll r.dest_id with _ | dest <;> rw [hlk] at h
        · simp at h
        · simp only [] at h
          by_cases hamt : 0 < min (min rem r.max_capacity)
              (min (if dest.type == "tank" then dest.capacity - dest.stock
                else dest.daily_input) node.daily_output)
          · rw [if_pos hamt] at h
            rcases hrec : Fuel.drainEndgameRoutes nodesAll cur total node nid rs
                (rem - min (min rem r.max_capacity)
                  (min (if dest.type == "tank" then dest.capacity - dest.stock
                    else dest.daily_input) node.daily_output))
              with e | ms2 <;> rw [hrec] at h
            · simp at h
            · simp only [Except.ok.injEq] at h
              rw [← h] at hm
              rcases List.mem_cons.mp hm with rfl | hm'
              · exact ⟨rfl, not_lt.mp hlate, rfl,
                  le_trans (min_le_right _ _) (min_le_right _ _)⟩
              · exact ih _ _ hrec m hm'
          · rw [if_neg hamt] at h
            exact ih _ _ h m hm

theorem Fuel.drainAllRefineries_spec (nodesAll : Fuel.NodeMap) (conns : Fuel.ConnMap)
    (cur total : ℤ) :
    ∀ (l : List (String × Fuel.Node)) (ms : List Fuel.Movement),
      Fuel.drainAllRefineries nodesAll conns cur total l = .ok ms →
      ∀ m ∈ ms, m.postedDay = cur ∧ cur + m.leadTime ≤ total ∧
        ∃ nid node, (nid, node) ∈ l ∧ m.fromNode = nid ∧ node.type = "refinery" ∧
          m.amount ≤ node.daily_output := by
  intro l
  induction l with
  | nil =>
    intro ms h m hm
    simp only [Fuel.drainAllRefineries, Except.ok.injEq] at h
    rw [← h] at hm
    simp at hm
  | cons p rest ih =>
    obtain ⟨nid, node⟩ := p
    intro ms h m hm
    rw [Fuel.drainAllRefineries] at h
    by_cases hc : node.type == "refinery" ∧ 0 < node.stock
    · rw [if_pos hc] at h
      simp only [] at h
      rcases hdr : Fuel.drainEndgameRoutes nodesAll cur total node nid
          (Fuel.sortRoutes (((Fuel.refineryRoutes nodesAll conns).lookup nid).getD []))
          node.stock with e | ms1 <;> rw [hdr] at h
      · simp at h
      · simp only [] at h
        rcases hrest : Fuel.drainAllRefineries nodesAll conns cur total rest
          with e | ms3 <;> rw [hrest] at h
        · simp at h
        · simp only [Except.ok.injEq] at h
          rw [← h] at hm
          rcases List.mem_append.mp hm with hm1 | hm2
          · obtain ⟨hday, hlead, hfrom, hamt⟩ :=
              Fuel.drainEndgameRoutes_spec nodesAll cur total node nid _ _ _ hdr m hm1
            exact ⟨hday, hlead, nid, node, List.mem_cons_self _ _, hfrom,
              by simpa using hc.1, hamt⟩
          · obtain ⟨hday, hlead, nid', node', hmem, hr⟩ := ih _ hrest m hm2
            exact ⟨hday, hlead, nid', node', List.mem_cons_of_mem _ hmem, hr⟩
    · rw [if_neg hc] at h
      obtain ⟨hday, hlead, nid', node', hmem, hr⟩ := ih _ h m hm
      exact ⟨hday, hlead, nid', node', List.mem_cons_of_mem _ hmem, hr⟩

theorem Fuel.fulfillRoutes_spec (cur : ℤ) (custId : String) :
    ∀ (rs : List Fuel.CRoute) (rem : ℚ) (ns ns' : Fuel.NodeMap)
      (ms : List Fuel.Movement),
      Fuel.fulfillRoutes cur custId rs rem ns = (ns', .ok ms) →
      (∀ m ∈ ms, m.postedDay = cur ∧ (∃ r ∈ rs, m.leadTime = r.lead_time) ∧
        ∃ n, Fuel.lookupNode ns m.fromNode = some n ∧ m.amount ≤ n.daily_output) ∧
      (∀ k n, Fuel.lookupNode ns k = some n →
        ∃ n', Fuel.lookupNode ns' k = some n' ∧
          n'.stock + Fuel.sumFrom k ms = n.stock ∧
          n'.type = n.type ∧ n'.daily_output = n.daily_output ∧
          (0 ≤ n.stock → 0 ≤ n'.stock)) := by
  intro rs
  induction rs with
  | nil =>
    intro rem ns ns' ms h
    simp only [Fuel.fulfillRoutes, Prod.mk.injEq, Except.ok.injEq] at h
    obtain ⟨hns, hms⟩ := h
    rw [← hns, ← hms]
    refine ⟨by simp, fun k n hk => ⟨n, hk, by simp [Fuel.sumFrom_nil], rfl, rfl, fun hn => hn⟩⟩
  | cons r rs ih =>
    intro rem ns ns' ms h
    rw [Fuel.fulfillRoutes] at h
    by_cases hrem : rem ≤ 0
    · rw [if_pos hrem] at h
      simp only [Prod.mk.injEq, Except.ok.injEq] at h
      obtain ⟨hns, hms⟩ := h
      rw [← hns, ← hms]
      refine ⟨by simp, fun k n hk => ⟨n, hk, by simp [Fuel.sumFrom_nil], rfl, rfl, fun hn => hn⟩⟩
    · rw [if_neg hrem] at h
      rcases hlk : Fuel.lookupNode ns r.source_id with _ | src <;> rw [hlk] at h
      · simp at h
      · simp only [] at h
        by_cases hstock : src.stock ≤ 0
        · rw [if_pos hstock] at h
          obtain ⟨c1, c2⟩ := ih _ _ _ _ h
          refine ⟨fun m hm => ?_, c2⟩
          obtain ⟨hday, ⟨r', hr', hlead⟩, hn⟩ := c1 m hm
          exact ⟨hday, ⟨r', List.mem_cons_of_mem _ hr', hlead⟩, hn⟩
        · rw [if_neg hstock] at h
          by_cases hamt : 0 < min (min rem r.max_capacity) (min src.stock src.daily_output)
          · rw [if_pos hamt] at h
            rcases hrec : Fuel.fulfillRoutes cur custId rs
                (rem - min (min rem r.max_capacity) (min src.stock src.daily_output))
                (Fuel.setStock ns r.source_id
                  (src.stock - min (min rem r.max_capacity) (min src.stock src.daily_output)))
              with ⟨ns2, res2⟩
            rw [hrec] at h
            cases res2 with
            | error e => simp at h
            | ok ms2 =>
              simp only [Prod.mk.injEq, Except.ok.injEq] at h
              obtain ⟨hns, hms⟩ := h
              obtain ⟨c1, c2⟩ := ih _ _ _ _ hrec
              have hamt_le_out : min (min rem r.max_capacity)
                  (min src.stock src.daily_output) ≤ src.daily_output :=
                le_trans (min_le_right _ _) (min_le_right _ _)
              have hamt_le_stock : min (min rem r.max_capacity)
                  (min src.stock src.daily_output) ≤ src.stock :=
                le_trans (min_le_right _ _) (min_le_left _ _)
              rw [← hns, ← hms]
              constructor
              · intro m hm
                rcases List.mem_cons.mp hm with rfl | hm'
                · exact ⟨rfl, ⟨r, List.mem_cons_self _ _, rfl⟩, src, hlk, hamt_le_out⟩
                · obtain ⟨hday, ⟨r', hr', hlead⟩, n2, hn2, hout⟩ := c1 m hm'
                  rw [Fuel.lookup_setStock] at hn2
                  rcases Option.map_eq_some'.mp hn2 with ⟨n0, hn0, hfn⟩
                  have hdo : n2.daily_output = n0.daily_output := by
                    rw [← hfn]
                    split <;> rfl
                  exact ⟨hday, ⟨r', List.mem_cons_of_mem _ hr', hlead⟩, n0, hn0,
                    hdo ▸ hout⟩
              · intro k n hk
                by_cases hksrc : k = r.source_id
                · have hnsrc : n = src := by
                    rw [hksrc] at hk
                    exact Option.some.inj (hk.symm.trans hlk)
                  have hkmid : Fuel.lookupNode (Fuel.setStock ns r.source_id
                      (src.stock - min (min rem r.max_capacity)
                        (min src.stock src.daily_output))) k
                      = some { src with stock := (src.stock - min (min rem r.max_capacity)
                          (min src.stock src.daily_output)) } := by
                    rw [Fuel.lookup_setStock, hk, hnsrc]
                    simp [hksrc]
                  obtain ⟨n', hn', hsum, htype, hout, hpos⟩ := c2 k _ hkmid
                  have hsum' : n'.stock + Fuel.sumFrom k ms2
                      = src.stock - min (min rem r.max_capacity)
                        (min src.stock src.daily_output) := hsum
                  refine ⟨n', hn', ?_, by rw [hnsrc]; exact htype,
                    by rw [hnsrc]; exact hout,
                    fun _ => hpos (sub_nonneg.mpr hamt_le_stock)⟩
                  have hfrom : (⟨r.conn_id, min (min rem r.max_capacity)
                      (min src.stock src.daily_output), r.source_id, custId, cur,
                      r.lead_time⟩ : Fuel.Movement).fromNode = k := hksrc.symm
                  rw [Fuel.sumFrom_cons, if_pos hfrom, hnsrc]
                  have hgoal : n'.stock + (min (min rem r.max_capacity)
                      (min src.stock src.daily_output) + Fuel.sumFrom k ms2)
                      = src.stock := by linarith
                  exact hgoal
                · have hkmid : Fuel.lookupNode (Fuel.setStock ns r.source_id
                      (src.stock - min (min rem r.max_capacity)
                        (min src.stock src.daily_output))) k = some n := by
                    rw [Fuel.lookup_setStock, hk]
                    simp [hksrc]
                  obtain ⟨n', hn', hsum, htype, hout, hpos⟩ := c2 k _ hkmid
                  refine ⟨n', hn', ?_, htype, hout, hpos⟩
                  have hfrom : ¬ ((⟨r.conn_id, min (min rem r.max_capacity)
                      (min src.stock src.daily_output), r.source_id, custId, cur,
                      r.lead_time⟩ : Fuel.Movement).fromNode = k) :=
                    fun hcon => hksrc hcon.symm
                  rw [Fuel.sumFrom_cons, if_neg hfrom, zero_add]
                  exact hsum
          · rw [if_neg hamt] at h
            obtain ⟨c1, c2⟩ := ih _ _ _ _ h
            refine ⟨fun m hm => ?_, c2⟩
            obtain ⟨hday, ⟨r', hr', hlead⟩, hn⟩ := c1 m hm
            exact ⟨hday, ⟨r', List.mem_cons_of_mem _ hr', hlead⟩, hn⟩

theorem Fuel.fulfillRoutes_preserves (cur : ℤ) (custId : String) :
    ∀ (rs : List Fuel.CRoute) (rem : ℚ) (ns ns' : Fuel.NodeMap)
      (res : Except Fuel.Err (List Fuel.Movement)),
      Fuel.fulfillRoutes cur custId rs rem ns = (ns', res) →
      ∀ k n', Fuel.lookupNode ns' k = some n' →
        ∃ n, Fuel.lookupNode ns k = some n ∧ n'.type = n.type ∧
          n'.daily_output = n.daily_output := by
  intro rs
  induction rs with
  | nil =>
    intro rem ns ns' res h k n' hk
    simp only [Fuel.fulfillRoutes, Prod.mk.injEq] at h
    rw [← h.1] at hk
    exact ⟨n', hk, rfl, rfl⟩
  | cons r rs ih =>
    intro rem ns ns' res h k n' hk
    rw [Fuel.fulfillRoutes] at h
    by_cases hrem : rem ≤ 0
    · rw [if_pos hrem] at h
      simp only [Prod.mk.injEq] at h
      rw [← h.1] at hk
      exact ⟨n', hk, rfl, rfl⟩
    · rw [if_neg hrem] at h
      rcases hlk : Fuel.lookupNode ns r.source_id with _ | src <;> rw [hlk] at h
      · simp only [Prod.mk.injEq] at h
        rw [← h.1] at hk
        exact ⟨n', hk, rfl, rfl⟩
      · simp only [] at h
        by_cases hstock : src.stock ≤ 0
        · rw [if_pos hstock] at h
          exact ih _ _ _ _ h k n' hk
        · rw [if_neg hstock] at h
          by_cases hamt : 0 < min (min rem r.max_capacity) (min src.stock src.daily_output)
          · rw [if_pos hamt] at h
            rcases hrec : Fuel.fulfillRoutes cur custId rs
                (rem - min (min rem r.max_capacity) (min src.stock src.daily_output))
                (Fuel.setStock ns r.source_id
                  (src.stock - min (min rem r.max_capacity)
                    (min src.stock src.daily_output)))
              with ⟨ns2, res2⟩
            rw [hrec] at h
            have hns2 : ns2 = ns' := by
              cases res2 <;> simp only [Prod.mk.injEq] at h <;> exact h.1
            rw [hns2] at hrec
            obtain ⟨n2, hn2, htype2, hout2⟩ := ih _ _ _ _ hrec k n' hk
            rw [Fuel.lookup_setStock] at hn2
            rcases Option.map_eq_some'.mp hn2 with ⟨n0, hn0, hfn⟩
            refine ⟨n0, hn0, ?_, ?_⟩
            · rw [htype2, ← hfn]
              split <;> rfl
            · rw [hout2, ← hfn]
              split <;> rfl
          · rw [if_neg hamt] at h
            exact ih _ _ _ _ h k n' hk

theorem Fuel.fulfillDemands_spec (custRoutes : List (String × List Fuel.CRoute))
    (cur total : ℤ) :
    ∀ (ds : List Fuel.Demand) (ns ns' : Fuel.NodeMap) (ms : List Fuel.Movement),
      Fuel.fulfillDemands custRoutes cur total ds ns = (ns', .ok ms) →
      (∀ m ∈ ms, m.postedDay = cur ∧ cur + m.leadTime ≤ total ∧
        ∃ n, Fuel.lookupNode ns m.fromNode = some n ∧ m.amount ≤ n.daily_output) ∧
      (∀ k n, Fuel.lookupNode ns k = some n →
        ∃ n', Fuel.lookupNode ns' k = some n' ∧
          n'.stock + Fuel.sumFrom k ms = n.stock ∧
          n'.type = n.type ∧ n'.daily_output = n.daily_output ∧
          (0 ≤ n.stock → 0 ≤ n'.stock)) := by
  intro ds
  induction ds with
  | nil =>
    intro ns ns' ms h
    simp only [Fuel.fulfillDemands, Prod.mk.injEq, Except.ok.injEq] at h
    obtain ⟨hns, hms⟩ := h
    rw [← hns, ← hms]
    exact ⟨by simp, fun k n hk =>
      ⟨n, hk, by simp [Fuel.sumFrom_nil], rfl, rfl, fun hh => hh⟩⟩
  | cons d ds ih =>
    intro ns ns' ms h
    rw [Fuel.fulfillDemands] at h
    by_cases hrem : d.remaining_amount ≤ 0
    · rw [if_pos hrem] at h
      exact ih _ _ _ h
    · rw [if_neg hrem] at h
      simp only [] at h
      by_cases hroutes : ((custRoutes.lookup d.customer_id).getD []).filter
          (fun r => cur + r.lead_time ≤ total) = []
      · rw [if_pos hroutes] at h
        exact ih _ _ _ h
      · rw [if_neg hroutes] at h
        rcases hfr : Fuel.fulfillRoutes cur d.customer_id
            (Fuel.sortCRoutes (((custRoutes.lookup d.customer_id).getD []).filter
              (fun r => cur + r.lead_time ≤ total)))
            d.remaining_amount ns with ⟨ns1, res1⟩
        rw [hfr] at h
        cases res1 with
        | error e => simp at h
        | ok ms1 =>
          simp only [] at h
          rcases hfd : Fuel.fulfillDemands custRoutes cur total ds ns1 with ⟨ns2, res2⟩
          rw [hfd] at h
          cases res2 with
          | error e => simp at h
          | ok ms2 =>
            simp only [Prod.mk.injEq, Except.ok.injEq] at h
            obtain ⟨hns, hms⟩ := h
            obtain ⟨a1, a2⟩ := Fuel.fulfillRoutes_spec cur d.customer_id _ _ _ _ _ hfr
            obtain ⟨b1, b2⟩ := ih _ _ _ hfd
            rw [← hns, ← hms]
            constructor
            · intro m hm
              rcases List.mem_append.mp hm with hm1 | hm2
              · obtain ⟨hday, ⟨r', hr', hlead⟩, hn⟩ := a1 m hm1
                refine ⟨hday, ?_, hn⟩
                have hfilt := List.of_mem_filter (Fuel.mem_sortCRoutes hr')
                rw [hlead]
                simpa using hfilt
              · obtain ⟨hday, hlead, n1, hn1, hout⟩ := b1 m hm2
                obtain ⟨n0, hn0, htype0, hout0⟩ :=
                  Fuel.fulfillRoutes_preserves cur d.customer_id _ _ _ _ _ hfr
                    m.fromNode n1 hn1
                exact ⟨hday, hlead, n0, hn0, hout0 ▸ hout⟩
            · intro k n hk
              obtain ⟨n1, hn1, hsum1, htype1, hout1, hpos1⟩ := a2 k n hk
              obtain ⟨n2, hn2, hsum2, htype2, hout2, hpos2⟩ := b2 k n1 hn1
              refine ⟨n2, hn2, ?_, htype2.trans htype1, hout2.trans hout1,
                fun hp => hpos2 (hpos1 hp)⟩
              rw [Fuel.sumFrom_append]
              linarith

theorem Fuel.optimizeEndgame_ok_inv (nodes : Fuel.NodeMap) (conns : Fuel.ConnMap)
    (demands : List Fuel.Demand) (cur total : ℤ) (ns' : Fuel.NodeMap)
    (ms : List Fuel.Movement)
    (h : Fuel.optimizeEndgame nodes conns demands cur total = (ns', .ok ms)) :
    ∃ ms1 ms2, Fuel.drainAllRefineries nodes conns cur total nodes = .ok ms1 ∧
      Fuel.fulfillDemands (Fuel.customerRoutes nodes conns) cur total demands nodes
        = (ns', .ok ms2) ∧ ms = ms1 ++ ms2 := by
  rw [Fuel.optimizeEndgame] at h
  rcases h1 : Fuel.drainAllRefineries nodes conns cur total nodes with e | ms1 <;>
    rw [h1] at h
  · simp at h
  · simp only [] at h
    rcases h2 : Fuel.fulfillDemands (Fuel.customerRoutes nodes conns) cur total
      demands nodes with ⟨ns2, res2⟩
    rw [h2] at h
    cases res2 with
    | error e => simp at h
    | ok ms2 =>
      simp only [Prod.mk.injEq, Except.ok.injEq] at h
      exact ⟨ms1, ms2, rfl, by rw [h.1], h.2.symm⟩

/-- C3 (amended): every movement emitted by `_optimize_endgame` (both the
refinery-drain pass and the demand pass) satisfies
posted day + lead time ≤ the run's total number of days; the
critical-refinery pass, which also runs on endgame days, applies no such
filter (see the counterexample). -/
theorem c3_amended (nodes : Fuel.NodeMap) (conns : Fuel.ConnMap)
    (demands : List Fuel.Demand) (cur total : ℤ) (ns' : Fuel.NodeMap)
    (ms : List Fuel.Movement)
    (he : Fuel.optimizeEndgame nodes conns demands cur total = (ns', .ok ms)) :
    ∀ m ∈ ms, m.postedDay + m.leadTime ≤ total := by
  obtain ⟨ms1, ms2, h1, h2, rfl⟩ :=
    Fuel.optimizeEndgame_ok_inv nodes conns demands cur total ns' ms he
  intro m hm
  rcases List.mem_append.mp hm with hm1 | hm2
  · obtain ⟨hday, hlead, -⟩ :=
      Fuel.drainAllRefineries_spec nodes conns cur total nodes ms1 h1 m hm1
    rw [hday]
    exact hlead
  · obtain ⟨hday, hlead, -⟩ :=
      (Fuel.fulfillDemands_spec (Fuel.customerRoutes nodes conns) cur total
        demands nodes ns' ms2 h2).1 m hm2
    rw [hday]
    exact hlead

/-- C3 (amended, witness): the endgame scenario on day 38 of 42 emits the
single tank-to-customer movement, whose arrival day 39 is within the run. -/
theorem c3_amended_witness :
    Fuel.endg_mv.postedDay + Fuel.endg_mv.leadTime ≤ (42 : ℤ) := by
  refine c3_amended Fuel.endg_nodes Fuel.endg_conns Fuel.endg_demands 38 42
    [("T1", ⟨"T1", "tank", 1000, 100, 100, 0⟩), ("C1", ⟨"C1", "customer", 0, 0, 500, 0⟩)]
    [Fuel.endg_mv] ?_ Fuel.endg_mv (List.mem_singleton.mpr rfl)
  simp +decide [Fuel.optimizeEndgame, Fuel.drainAllRefineries, Fuel.drainEndgameRoutes,
    Fuel.fulfillDemands, Fuel.fulfillRoutes, Fuel.customerRoutes, Fuel.refineryRoutes,
    Fuel.routesFrom, Fuel.sortRoutes, Fuel.insertRoute, Fuel.sortCRoutes,
    Fuel.insertCRoute, Fuel.lookupNode, Fuel.setStock, Fuel.endg_nodes, Fuel.endg_conns,
    Fuel.endg_demands, Fuel.endg_T1, Fuel.endg_C1, Fuel.endg_mv, List.lookup,
    Fuel.Movement.mk.injEq, Fuel.Node.mk.injEq] <;> norm_num

/-- C3 (counterexample): on endgame day 38 of a 42-day run, the
critical-refinery pass (which runs before the endgame passes and applies no
arrival-day filter) emits a movement with lead time 10, so `optimize()`
returns a movement whose implied arrival day 48 exceeds the run's final
day. -/
theorem c3_counterexample :
    (Fuel.optimizeDay
        [("R", ⟨"R", "refinery", 1000, 100, 0, 800⟩),
         ("T", ⟨"T", "tank", 10000, 100, 1000, 0⟩)]
        [("K1", ⟨"K1", "R", "T", 1, 10, "pipeline", 500, 1/2, 1/5⟩)]
        [] 38 42 Fuel.endg_solver).2
      = [⟨"K1", 100, "R", "T", 38, 10⟩] ∧
    ¬ ((⟨"K1", 100, "R", "T", 38, 10⟩ : Fuel.Movement).postedDay
        + (⟨"K1", 100, "R", "T", 38, 10⟩ : Fuel.Movement).leadTime ≤ (42 : ℤ)) := by
  constructor
  · simp +decide [Fuel.optimizeDay, Fuel.isEndgame, Fuel.endgamePath,
      Fuel.handleCriticalRefineries, Fuel.drainCritical, Fuel.optimizeEndgame,
      Fuel.drainAllRefineries, Fuel.drainEndgameRoutes, Fuel.fulfillDemands,
      Fuel.fulfillRoutes, Fuel.customerRoutes, Fuel.refineryRoutes, Fuel.routesFrom,
      Fuel.sortRoutes, Fuel.insertRoute, Fuel.sortCRoutes, Fuel.insertCRoute,
      Fuel.lookupNode, Fuel.setStock, Fuel.projGet, Fuel.projAdd, List.lookup,
      Fuel.Movement.mk.injEq] <;> norm_num
  · decide

/-- C5 (amended): every movement the critical-refinery pass or the endgame
pass emits has amount at most the source node's daily output cap, and for
every non-refinery node with non-negative stock the day's summed outflow is
at most its stock at the start of allocation; the *summed* outflow of a
refinery, however, is not capped by its daily output (see the
counterexample). -/
theorem c5_amended (nodes : Fuel.NodeMap) (conns : Fuel.ConnMap)
    (demands : List Fuel.Demand) (cur total : ℤ)
    (hnd : (nodes.map Prod.fst).Nodup)
    (proj : Fuel.ProjStocks) (cms : List Fuel.Movement)
    (hc : Fuel.handleCriticalRefineries nodes conns cur nodes [] = .ok (proj, cms))
    (ns' : Fuel.NodeMap) (ems : List Fuel.Movement)
    (he : Fuel.optimizeEndgame nodes conns demands cur total = (ns', .ok ems)) :
    (∀ m ∈ cms ++ ems, ∃ n, Fuel.lookupNode nodes m.fromNode = some n ∧
      m.amount ≤ n.daily_output) ∧
    (∀ k n, Fuel.lookupNode nodes k = some n → n.type ≠ "refinery" → 0 ≤ n.stock →
      Fuel.sumFrom k (cms ++ ems) ≤ n.stock) := by
  obtain ⟨ms1, ms2, h1, h2, hsplit⟩ :=
    Fuel.optimizeEndgame_ok_inv nodes conns demands cur total ns' ems he
  constructor
  · intro m hm
    rcases List.mem_append.mp hm with hm1 | hm2
    · obtain ⟨hday, nid, node, hmem, hfrom, htype, hamt⟩ :=
        Fuel.handleCriticalRefineries_spec nodes conns cur nodes [] proj cms hc m hm1
      refine ⟨node, ?_, hamt⟩
      rw [hfrom]
      exact Fuel.lookup_eq_some_of_mem_nodup hnd hmem
    · rw [hsplit] at hm2
      rcases List.mem_append.mp hm2 with hma | hmb
      · obtain ⟨hday, hlead, nid, node, hmem, hfrom, htype, hamt⟩ :=
          Fuel.drainAllRefineries_spec nodes conns cur total nodes ms1 h1 m hma
        refine ⟨node, ?_, hamt⟩
        rw [hfrom]
        exact Fuel.lookup_eq_some_of_mem_nodup hnd hmem
      · obtain ⟨hday, hlead, n, hn, hamt⟩ :=
          (Fuel.fulfillDemands_spec (Fuel.customerRoutes nodes conns) cur total
            demands nodes ns' ms2 h2).1 m hmb
        exact ⟨n, hn, hamt⟩
  · intro k n hk hntype hstock
    have hnotfrom_c : ∀ m ∈ cms, m.fromNode ≠ k := by
      intro m hm hcon
      obtain ⟨hday, nid, node, hmem, hfrom, htype, hamt⟩ :=
        Fuel.handleCriticalRefineries_spec nodes conns cur nodes [] proj cms hc m hm
      rw [hcon] at hfrom
      rw [← hfrom] at hmem
      have hthis : Fuel.lookupNode nodes k = some node :=
        Fuel.lookup_eq_some_of_mem_nodup hnd hmem
      have hnn : n = node := Option.some.inj (hk.symm.trans hthis)
      rw [hnn] at hntype
      exact hntype htype
    have hnotfrom_a : ∀ m ∈ ms1, m.fromNode ≠ k := by
      intro m hm hcon
      obtain ⟨hday, hlead, nid, node, hmem, hfrom, htype, hamt⟩ :=
        Fuel.drainAllRefineries_spec nodes conns cur total nodes ms1 h1 m hm
      rw [hcon] at hfrom
      rw [← hfrom] at hmem
      have hthis : Fuel.lookupNode nodes k = some node :=
        Fuel.lookup_eq_some_of_mem_nodup hnd hmem
      have hnn : n = node := Option.some.inj (hk.symm.trans hthis)
      rw [hnn] at hntype
      exact hntype htype
    obtain ⟨n', hn', hsum, htype', hout', hpos'⟩ :=
      (Fuel.fulfillDemands_spec (Fuel.customerRoutes nodes conns) cur total
        demands nodes ns' ms2 h2).2 k n hk
    rw [hsplit, Fuel.sumFrom_append, Fuel.sumFrom_append,
      Fuel.sumFrom_eq_zero hnotfrom_c, Fuel.sumFrom_eq_zero hnotfrom_a]
    have := hpos' hstock
    linarith

/-- C5 (amended, witness): in the endgame scenario the tank ships 100 units
in total, which is exactly its stock at the start of allocation. -/
theorem c5_amended_witness :
    Fuel.sumFrom "T1" ([] ++ [Fuel.endg_mv]) ≤ Fuel.endg_T1.stock := by
  refine (c5_amended Fuel.endg_nodes Fuel.endg_conns Fuel.endg_demands 38 42
    (by decide) [] [] (by decide)
    [("T1", ⟨"T1", "tank", 1000, 100, 100, 0⟩), ("C1", ⟨"C1", "customer", 0, 0, 500, 0⟩)]
    [Fuel.endg_mv] ?_).2 "T1" Fuel.endg_T1 (by decide) (by decide)
    (by norm_num [Fuel.endg_T1])
  simp +decide [Fuel.optimizeEndgame, Fuel.drainAllRefineries, Fuel.drainEndgameRoutes,
    Fuel.fulfillDemands, Fuel.fulfillRoutes, Fuel.customerRoutes, Fuel.refineryRoutes,
    Fuel.routesFrom, Fuel.sortRoutes, Fuel.insertRoute, Fuel.sortCRoutes,
    Fuel.insertCRoute, Fuel.lookupNode, Fuel.setStock, Fuel.endg_nodes, Fuel.endg_conns,
    Fuel.endg_demands, Fuel.endg_T1, Fuel.endg_C1, Fuel.endg_mv, List.lookup,
    Fuel.Movement.mk.injEq, Fuel.Node.mk.injEq] <;> norm_num

/-- C6: for every active demand (remaining amount > 0) whose delivery
window intersects the planning horizon, the assembled model contains a
demand-fulfillment constraint for that demand's customer over exactly the
overlapping days, whose lower bound is
min(f · remaining, daily_input · overlap length) with f = 0.5 when
end_delivery_day - current_day ≤ 3 and f = 0.3 otherwise. -/
theorem c6_demand_constraint_present (nodes : Fuel.NodeMap) (conns : Fuel.ConnMap)
    (cur hz : ℤ) :
    ∀ (ds : List Fuel.Demand) (cs : List Fuel.DemandConstraint),
      Fuel.buildDemandConstraints nodes conns cur hz ds = .ok cs →
      ∀ d ∈ ds, 0 < d.remaining_amount →
        Fuel.intRange (max cur d.start_delivery_day)
          (min (cur + hz) (d.end_delivery_day + 1)) ≠ [] →
        ∃ c ∈ cs, ∃ n, Fuel.lookupNode nodes d.customer_id = some n ∧
          c.customerId = d.customer_id ∧
          c.window = Fuel.intRange (max cur d.start_delivery_day)
            (min (cur + hz) (d.end_delivery_day + 1)) ∧
          c.rhs = min ((if d.end_delivery_day - cur ≤ 3 then (1 : ℚ)/2 else 3/10)
              * d.remaining_amount)
            (n.daily_input * (c.window.length : ℚ)) := by
  intro ds
  induction ds with
  | nil =>
    intro cs hok d hd
    simp at hd
  | cons d0 ds ih =>
    intro cs hok d hd hrem hwin
    rw [Fuel.buildDemandConstraints] at hok
    rcases List.mem_cons.mp hd with rfl | hd'
    · rw [if_neg (not_le.mpr hrem)] at hok
      have hend : cur ≤ d.end_delivery_day := by
        by_contra hcon
        apply hwin
        rw [Fuel.intRange_eq_nil_iff]
        push_neg at hcon
        omega
      rw [if_pos hend] at hok
      simp only [] at hok
      rw [if_neg hwin] at hok
      rcases hlk : Fuel.lookupNode nodes d.customer_id with _ | n <;> rw [hlk] at hok
      · simp at hok
      · simp only [] at hok
        rcases hrec : Fuel.buildDemandConstraints nodes conns cur hz ds
          with e | cs2 <;> rw [hrec] at hok
        · simp at hok
        · simp only [Except.ok.injEq] at hok
          refine ⟨_, by rw [← hok]; exact List.mem_cons_self _ _, n, rfl, rfl, rfl, ?_⟩
          by_cases hdue : d.end_delivery_day - cur ≤ 3
          · rw [if_pos hdue, if_pos hdue]
            congr 1 <;> ring_nf
          · rw [if_neg hdue, if_neg hdue]
            congr 1 <;> ring_nf
    · by_cases hrem0 : d0.remaining_amount ≤ 0
      · rw [if_pos hrem0] at hok
        exact ih cs hok d hd' hrem hwin
      · rw [if_neg hrem0] at hok
        by_cases hend0 : cur ≤ d0.end_delivery_day
        · rw [if_pos hend0] at hok
          simp only [] at hok
          by_cases hwin0 : Fuel.intRange (max cur d0.start_delivery_day)
              (min (cur + hz) (d0.end_delivery_day + 1)) = []
          · rw [if_pos hwin0] at hok
            exact ih cs hok d hd' hrem hwin
          · rw [if_neg hwin0] at hok
            rcases hlk0 : Fuel.lookupNode nodes d0.customer_id with _ | n0 <;>
              rw [hlk0] at hok
            · simp at hok
            · simp only [] at hok
              rcases hrec : Fuel.buildDemandConstraints nodes conns cur hz ds
                with e | cs2 <;> rw [hrec] at hok
              · simp at hok
              · simp only [Except.ok.injEq] at hok
                obtain ⟨c, hc, hrest⟩ := ih cs2 hrec d hd' hrem hwin
                exact ⟨c, by rw [← hok]; exact List.mem_cons_of_mem _ hc, hrest⟩
        · rw [if_neg hend0] at hok
          exact ih cs hok d hd' hrem hwin

/-- C6 (witness): a demand of 786 units with window 6-21 against a customer
with daily input 260, on day 6 with horizon 7, yields the constraint with
lower bound min(0.3 · 786, 260 · 7) = 1179/5 over days 6-12. -/
theorem c6_witness :
    ∃ c ∈ [(⟨"C1", [6, 7, 8, 9, 10, 11, 12], [], 1179/5⟩ : Fuel.DemandConstraint)],
      ∃ n, Fuel.lookupNode [("C1", ⟨"C1", "customer", 0, 0, 260, 0⟩)] "C1" = some n ∧
        c.customerId = "C1" ∧
        c.window = Fuel.intRange (max 6 6) (min ((6:ℤ) + 7) (21 + 1)) ∧
        c.rhs = min ((if (21:ℤ) - 6 ≤ 3 then (1 : ℚ)/2 else 3/10) * 786)
          (n.daily_input * (c.window.length : ℚ)) := by
  refine c6_demand_constraint_present [("C1", ⟨"C1", "customer", 0, 0, 260, 0⟩)] [] 6 7
    [⟨"D1", "C1", 786, 0, 6, 21, 786⟩] _ ?_ ⟨"D1", "C1", 786, 0, 6, 21, 786⟩
    (List.mem_singleton.mpr rfl) (by norm_num) (by decide)
  simp +decide [Fuel.buildDemandConstraints, Fuel.lookupNode, Fuel.intRange,
    Fuel.flowKeys, List.lookup, Fuel.DemandConstraint.mk.injEq] <;> norm_num
